import Mathlib

/-!
Shallow embedding of the `bilibili_api` crate's credential / WBI-signing core
(files `src/error.rs`, `src/wbi_client/sign.rs`, `src/login/mod.rs`,
`src/login/qrcode.rs`), together with theorems settling the specification
claims about it.

Rust strings are modelled as Lean `String` (UTF-8; Rust's byte-wise string
order coincides with code-point order, hence with Lean's `String` order on
ASCII-free-of-surrogate data), machine integers as `Nat`/`Int`, and fallible
computations as `Except BError`.
-/

namespace BiliSpec

/-- Error enum of `src/error.rs` (`BError`).  The `String` payloads carry the
formatted messages the Rust code builds with `format!`. -/
inductive BError where
  | InternalError (s : String)
  | NetworkError (s : String)
  | JsonParseError (s : String)
  | WbiTokenExpired
  | BilibiliError (c : Int)
  | QrCodeGenError (s : String)
  deriving DecidableEq, Repr

/-- Result alias of `src/error.rs` (`BResult<T> = Result<T, BError>`). -/
abbrev BResult (α : Type) := Except BError α

instance {ε α : Type} [DecidableEq ε] [DecidableEq α] : DecidableEq (Except ε α) := fun a b =>
  match a, b with
  | .ok x, .ok y => decidable_of_iff (x = y) (by simp)
  | .ok _, .error _ => isFalse (by simp)
  | .error _, .ok _ => isFalse (by simp)
  | .error x, .error y => decidable_of_iff (x = y) (by simp)

/-- Embedding of `try_parse_error_code` of `src/error.rs`: the fixed lookup
table from (negative) error codes to messages, with the `"未知错误"`
(unknown error) fallback on the wildcard arm. -/
def try_parse_error_code (error_code : Int) : String :=
  if error_code = 0 then "无错误"
  else if error_code = -1 then "应用程序不存在或已被封禁"
  else if error_code = -2 then "Access Key 错误"
  else if error_code = -3 then "API 校验密匙错误"
  else if error_code = -4 then "调用方对该 Method 没有权限"
  else if error_code = -101 then "账号未登录"
  else if error_code = -102 then "账号被封停"
  else if error_code = -103 then "积分不足"
  else if error_code = -104 then "硬币不足"
  else if error_code = -105 then "验证码错误"
  else if error_code = -106 then "账号非正式会员或在适应期"
  else if error_code = -107 then "应用不存在或者被封禁"
  else if error_code = -108 then "未绑定手机"
  else if error_code = -110 then "未绑定手机"
  else if error_code = -111 then "csrf 校验失败"
  else if error_code = -112 then "系统升级中"
  else if error_code = -113 then "账号尚未实名认证"
  else if error_code = -114 then "请先绑定手机"
  else if error_code = -115 then "请先完成实名认证"
  else if error_code = -304 then "木有改动"
  else if error_code = -307 then "撞车跳转"
  else if error_code = -400 then "请求错误"
  else if error_code = -401 then "未认证 (或非法请求)"
  else if error_code = -403 then "访问权限不足"
  else if error_code = -404 then "啥都木有"
  else if error_code = -405 then "不支持该方法"
  else if error_code = -409 then "冲突"
  else if error_code = -412 then "请求被拦截 (客户端 ip 被服务端风控)"
  else if error_code = -500 then "服务器错误"
  else if error_code = -503 then "过载保护,服务暂不可用"
  else if error_code = -504 then "服务调用超时"
  else if error_code = -509 then "超出限制"
  else if error_code = -616 then "上传文件不存在"
  else if error_code = -617 then "上传文件太大"
  else if error_code = -625 then "登录失败次数太多"
  else if error_code = -626 then "用户不存在"
  else if error_code = -628 then "密码太弱"
  else if error_code = -629 then "用户名或密码错误"
  else if error_code = -632 then "操作对象数量限制"
  else if error_code = -643 then "被锁定"
  else if error_code = -650 then "用户等级太低"
  else if error_code = -652 then "重复的用户"
  else if error_code = -658 then "Token 过期"
  else if error_code = -662 then "密码时间戳过期"
  else if error_code = -688 then "地理区域限制"
  else if error_code = -689 then "版权限制"
  else if error_code = -701 then "扣节操失败"
  else if error_code = -799 then "请求过于频繁，请稍后再试"
  else if error_code = -8888 then "对不起，服务器开小差了~ (ಥ﹏ಥ)"
  else "未知错误"

/-- Embedding of `impl Display for BError` of `src/error.rs`: the string each
variant renders.  Rust's `i64::is_positive` is `0 < c`; on the `BilibiliError`
branch a non-positive code goes through `try_parse_error_code` and a positive
code is rendered with the generic `"Bilibili server returned an error,
code is {}"` template. -/
def displayBError : BError → String
  | .InternalError s => s
  | .NetworkError s => s
  | .JsonParseError s => s
  | .WbiTokenExpired => "Wbi token expired, try re-run"
  | .BilibiliError c =>
      if ¬ (0 < c) then try_parse_error_code c
      else "Bilibili server returned an error, code is " ++ toString c
  | .QrCodeGenError s => s

/-- Constructor helper `BError::from_json_err` of `src/error.rs` (specialised
to a plain message string, as every call site in the embedded code uses). -/
def from_json_err (e : String) : BError :=
  .JsonParseError ("Json parse error, " ++ e)

/-- Constructor helper `BError::from_internal_err` of `src/error.rs`. -/
def from_internal_err (e : String) : BError :=
  .InternalError ("Internal error, " ++ e)

/-- Constructor helper `BError::from_bilibili_err` of `src/error.rs`. -/
def from_bilibili_err (e : Int) : BError := .BilibiliError e

/-! ## `src/wbi_client/sign.rs`: next-day expiry computation -/

/-- Embedding of `get_next_day` of `src/wbi_client/sign.rs`, with the current
instant `now` (seconds since the Unix epoch, the value of `Utc::now()`, which
is non-negative on any running system) passed explicitly.

The Rust code takes the civil date in the fixed offset UTC+8
(`now.with_timezone(&east_8).date_naive()`, i.e. day number
`(now + 8*3600) / 86400` since the epoch), advances it by one day
(`checked_add_days(Days::new(1))`), pairs it with the time 00:00:00 and then
calls `.and_utc().timestamp()` — which interprets that naive date-time as
**UTC**, yielding `days * 86400`.  The error arms of the Rust function
(`FixedOffset::east_opt` on the constant `8*3600`, `checked_add_days` beyond
chrono's maximal year 262142, `NaiveTime::from_hms_opt(0,0,0)`, and a negative
timestamp) are unreachable for any realizable `now` and are not represented. -/
def get_next_day (now : Nat) : BResult Nat :=
  let china_days := (now + 8 * 3600) / 86400
  let next_day := china_days + 1
  Except.ok (next_day * 86400)

/-- Modelled from the spec: the Unix timestamp of the next midnight in the
UTC+8 timezone — the current instant converted to UTC+8, the date advanced by
one calendar day, and the time set to 00:00:00 **in that offset** (hence
8 hours = 28800 seconds earlier than the same civil instant read as UTC). -/
def spec_next_midnight_utc8 (now : Nat) : Nat :=
  ((now + 8 * 3600) / 86400 + 1) * 86400 - 8 * 3600

/-! ## Byte-level helpers: hex digits and UTF-8

Rust strings are UTF-8; the MD5 hash and the form-urlencoding of
`sign_data` operate on the byte representation, so we model the UTF-8
encoding of a `Char` explicitly (bytes are `Nat` values below 256). -/

/-- Lowercase hexadecimal digit for a value below 16 (as used by Rust's
`format!("{:x}", ...)` and by `hex_digest`'s `ENC_TAB`). -/
def hexDigitLower (n : Nat) : Char :=
  if n < 10 then Char.ofNat ('0'.toNat + n)
  else if n < 16 then Char.ofNat ('a'.toNat + (n - 10))
  else '0'

/-- Uppercase hexadecimal digit for a value below 16 (as used by the
`url` crate's percent-encoder). -/
def hexDigitUpper (n : Nat) : Char :=
  if n < 10 then Char.ofNat ('0'.toNat + n)
  else if n < 16 then Char.ofNat ('A'.toNat + (n - 10))
  else '0'

/-- UTF-8 encoding of one character, as the list of its bytes. -/
def utf8EncodeChar (c : Char) : List Nat :=
  let n := c.toNat
  if n < 0x80 then [n]
  else if n < 0x800 then
    [0xC0 ||| (n >>> 6), 0x80 ||| (n &&& 0x3F)]
  else if n < 0x10000 then
    [0xE0 ||| (n >>> 12), 0x80 ||| ((n >>> 6) &&& 0x3F), 0x80 ||| (n &&& 0x3F)]
  else
    [0xF0 ||| (n >>> 18), 0x80 ||| ((n >>> 12) &&& 0x3F),
     0x80 ||| ((n >>> 6) &&& 0x3F), 0x80 ||| (n &&& 0x3F)]

/-- UTF-8 byte representation of a string (what `str::as_bytes` yields). -/
def strBytes (s : String) : List Nat :=
  (s.data.map utf8EncodeChar).flatten

/-! ## MD5 (the `md5` crate used by `sign_data`), RFC 1321 -/

/-- Per-round added constants of MD5 (`K[i] = floor(2^32 * |sin(i+1)|)`). -/
def md5K : List Nat :=
  [0xd76aa478, 0xe8c7b756, 0x242070db, 0xc1bdceee,
   0xf57c0faf, 0x4787c62a, 0xa8304613, 0xfd469501,
   0x698098d8, 0x8b44f7af, 0xffff5bb1, 0x895cd7be,
   0x6b901122, 0xfd987193, 0xa679438e, 0x49b40821,
   0xf61e2562, 0xc040b340, 0x265e5a51, 0xe9b6c7aa,
   0xd62f105d, 0x02441453, 0xd8a1e681, 0xe7d3fbc8,
   0x21e1cde6, 0xc33707d6, 0xf4d50d87, 0x455a14ed,
   0xa9e3e905, 0xfcefa3f8, 0x676f02d9, 0x8d2a4c8a,
   0xfffa3942, 0x8771f681, 0x6d9d6122, 0xfde5380c,
   0xa4beea44, 0x4bdecfa9, 0xf6bb4b60, 0xbebfbc70,
   0x289b7ec6, 0xeaa127fa, 0xd4ef3085, 0x04881d05,
   0xd9d4d039, 0xe6db99e5, 0x1fa27cf8, 0xc4ac5665,
   0xf4292244, 0x432aff97, 0xab9423a7, 0xfc93a039,
   0x655b59c3, 0x8f0ccc92, 0xffeff47d, 0x85845dd1,
   0x6fa87e4f, 0xfe2ce6e0, 0xa3014314, 0x4e0811a1,
   0xf7537e82, 0xbd3af235, 0x2ad7d2bb, 0xeb86d391]

/-- Per-round left-rotation amounts of MD5. -/
def md5S : List Nat :=
  [7, 12, 17, 22, 7, 12, 17, 22, 7, 12, 17, 22, 7, 12, 17, 22,
   5, 9, 14, 20, 5, 9, 14, 20, 5, 9, 14, 20, 5, 9, 14, 20,
   4, 11, 16, 23, 4, 11, 16, 23, 4, 11, 16, 23, 4, 11, 16, 23,
   6, 10, 15, 21, 6, 10, 15, 21, 6, 10, 15, 21, 6, 10, 15, 21]

/-- 32-bit left rotation (operand assumed below `2^32`). -/
def rotl32 (x n : Nat) : Nat :=
  ((x <<< n) ||| (x >>> (32 - n))) % 4294967296

/-- MD5 working state: the four 32-bit registers A, B, C, D. -/
structure Md5State where
  a : Nat
  b : Nat
  c : Nat
  d : Nat
  deriving DecidableEq, Repr

/-- One of the 64 MD5 rounds on a message block `M` (16 little-endian words). -/
def md5Round (M : List Nat) (st : Md5State) (i : Nat) : Md5State :=
  let b := st.b
  let f :=
    if i < 16 then (b &&& st.c) ||| ((b ^^^ 0xFFFFFFFF) &&& st.d)
    else if i < 32 then (st.d &&& b) ||| ((st.d ^^^ 0xFFFFFFFF) &&& st.c)
    else if i < 48 then b ^^^ st.c ^^^ st.d
    else st.c ^^^ (b ||| (st.d ^^^ 0xFFFFFFFF))
  let g :=
    if i < 16 then i
    else if i < 32 then (5 * i + 1) % 16
    else if i < 48 then (3 * i + 5) % 16
    else (7 * i) % 16
  let tmp := (st.a + f + md5K.getD i 0 + M.getD g 0) % 4294967296
  let nb := (b + rotl32 tmp (md5S.getD i 0)) % 4294967296
  ⟨st.d, nb, b, st.c⟩

/-- Little-endian split of a value into `k` bytes. -/
def leBytes (k n : Nat) : List Nat :=
  (List.range k).map fun i => (n >>> (8 * i)) % 256

/-- The 16 little-endian 32-bit words of one 64-byte block. -/
def md5Words (block : List Nat) : List Nat :=
  (List.range 16).map fun i =>
    block.getD (4 * i) 0 + block.getD (4 * i + 1) 0 * 256 +
      block.getD (4 * i + 2) 0 * 65536 + block.getD (4 * i + 3) 0 * 16777216

/-- Processing of one 64-byte block: 64 rounds, then wrap-around addition of
the incoming state. -/
def md5Block (st : Md5State) (block : List Nat) : Md5State :=
  let M := md5Words block
  let r := (List.range 64).foldl (md5Round M) st
  ⟨(st.a + r.a) % 4294967296, (st.b + r.b) % 4294967296,
   (st.c + r.c) % 4294967296, (st.d + r.d) % 4294967296⟩

/-- MD5 padding: a `0x80` byte, zeros up to 56 mod 64, then the bit length
as 8 little-endian bytes. -/
def md5Pad (msg : List Nat) : List Nat :=
  let len := msg.length
  let zeros := (64 + 56 - (len + 1) % 64) % 64
  msg ++ [0x80] ++ List.replicate zeros 0 ++ leBytes 8 ((len * 8) % 18446744073709551616)

/-- Block-by-block driver over the padded message (`n` counts the remaining
64-byte blocks, so the recursion is structural). -/
def md5Blocks : Nat → Md5State → List Nat → Md5State
  | 0, st, _ => st
  | n + 1, st, l => md5Blocks n (md5Block st (l.take 64)) (l.drop 64)

/-- MD5 digest of a byte sequence, as the 16 output bytes. -/
def md5Bytes (msg : List Nat) : List Nat :=
  let padded := md5Pad msg
  let st := md5Blocks (padded.length / 64) ⟨0x67452301, 0xefcdab89, 0x98badcfe, 0x10325476⟩ padded
  leBytes 4 st.a ++ leBytes 4 st.b ++ leBytes 4 st.c ++ leBytes 4 st.d

/-- MD5 digest rendered as 32 lowercase hexadecimal characters, as Rust's
`format!("{:x}", md5.finalize())` renders it. -/
def md5hex (msg : List Nat) : String :=
  ⟨((md5Bytes msg).map fun b => [hexDigitLower (b >>> 4), hexDigitLower (b % 16)]).flatten⟩

/-! ## Form urlencoding (the `serde_urlencoded` / `url` crates)

`sign_data` serializes the caller's query with `serde_urlencoded::to_string`
and immediately deserializes it back into `Vec<(&str, &str)>`.  The `url`
crate's `application/x-www-form-urlencoded` byte serializer keeps ASCII
alphanumerics and `*`, `-`, `.`, `_`, writes a space as `+`, and
percent-encodes every other byte with uppercase hex digits. -/

/-- Splitting of a character list at every occurrence of a separator
character, keeping empty pieces — the behavior of Rust's `str::split` with a
`char` pattern (always at least one piece). -/
def splitOnChar (sep : Char) : List Char → List (List Char)
  | [] => [[]]
  | c :: l =>
    match splitOnChar sep l with
    | [] => [[]]
    | p :: ps => if c = sep then [] :: p :: ps else (c :: p) :: ps

/-- Interleaving of a separator between pieces (inverse of `splitOnChar`). -/
def intercalateChars (sep : List Char) : List (List Char) → List Char
  | [] => []
  | [x] => x
  | x :: xs => x ++ sep ++ intercalateChars sep xs

/-- Whether a byte is emitted unchanged by the form-urlencoded serializer. -/
def formSafeByte (b : Nat) : Bool :=
  (0x30 ≤ b && b ≤ 0x39) || (0x41 ≤ b && b ≤ 0x5A) || (0x61 ≤ b && b ≤ 0x7A) ||
    b == 0x2A || b == 0x2D || b == 0x2E || b == 0x5F

/-- Form-urlencoded serialization of one byte. -/
def formEncodeByte (b : Nat) : List Char :=
  if b == 0x20 then ['+']
  else if formSafeByte b then [Char.ofNat b]
  else ['%', hexDigitUpper (b >>> 4), hexDigitUpper (b % 16)]

/-- Form-urlencoded serialization of one string component. -/
def formEncodeStr (s : String) : String :=
  ⟨((strBytes s).map formEncodeByte).flatten⟩

/-- Embedding of `serde_urlencoded::to_string` on a sequence of string pairs
(the only shapes `sign_data` serializes): `k=v` components joined by `&`.
Serialization of string data cannot fail, so the `Result` layer is dropped. -/
def form_to_string (v : List (String × String)) : String :=
  ⟨intercalateChars ['&']
    (v.map fun p => (formEncodeStr p.1 ++ "=" ++ formEncodeStr p.2).data)⟩

/-- Embedding of `serde_urlencoded::from_str::<Vec<(&str, &str)>>`.

The `url` crate's parser splits the input on `&`, skips empty pieces, and
splits each piece at its first `=` (a missing `=` yields an empty value).
Each component is then percent-plus-decoded into a `Cow` that is `Borrowed`
exactly when the component contains neither `+` nor `%`; deserializing into
the **borrowed** `&str` fails on an `Owned` cow (serde's "expected a borrowed
string" invalid-type error), which `sign_data` surfaces as an internal error.
`none` models that failure. -/
def form_from_str (s : String) : Option (List (String × String)) :=
  let pieces := (splitOnChar '&' s.data).filter (fun p => ¬ p = [])
  let comp : List Char → Option String := fun cs =>
    if cs.contains '+' || cs.contains '%' then none else some ⟨cs⟩
  pieces.foldr
    (fun cs acc => do
      let name ← comp (cs.takeWhile (· ≠ '='))
      let value ← comp ((cs.dropWhile (· ≠ '=')).drop 1)
      let rest ← acc
      return (name, value) :: rest)
    (some [])

/-! ## `WbiSign` and `sign_data` (`src/wbi_client/sign.rs`) -/

/-- The `WbiSign` struct: the mixing key and its expiry timestamp. -/
structure WbiSign where
  mixin_key : String
  expire_time : Nat
  deriving DecidableEq, Repr

/-- Lexicographic code-point comparison of character lists; on UTF-8 data
this coincides with Rust's byte-wise `String::cmp`, since UTF-8 preserves
code-point order. -/
def charsLe (xs ys : List Char) : Bool :=
  match xs, ys with
  | [], _ => true
  | _ :: _, [] => false
  | x :: xs, y :: ys => if x < y then true else if y < x then false else charsLe xs ys

/-- Key-wise "less or equal" used by `sign_data`'s
`v.sort_by(|(k1, _), (k2, _)| k1.cmp(k2))`. -/
def pairKeyLe (p q : String × String) : Prop := charsLe p.1.data q.1.data = true

instance : DecidableRel pairKeyLe := fun p q =>
  inferInstanceAs (Decidable (charsLe p.1.data q.1.data = true))

/-- Stable by-key sort modelling Rust's (stable) `slice::sort_by` with the
key comparator: insertion sort into non-decreasing key order, keeping
equal-key pairs in their original relative order — the unique stable sort. -/
def sortByKey (v : List (String × String)) : List (String × String) :=
  v.insertionSort pairKeyLe

/-- Embedding of `WbiSign::sign_data` of `src/wbi_client/sign.rs`, with the
current time `now` (the `get_timestamp()` result) passed explicitly and the
query modelled as the list of pairs the caller's `data` serializes to.

Steps, as in the source: expiry check (`now >= self.expire_time` fails with
`WbiTokenExpired`); round-trip of the query through form-urlencoding (whose
borrowed deserialization fails on any component that needed escaping); push
of `("wts", now)`; stable sort by key; re-serialization with the mixing key
appended as salt; MD5 of that string; push of `("w_rid", digest)`.  The
returned list is the query attached to the `RequestBuilder`. -/
def sign_data (sign : WbiSign) (now : Nat) (data : List (String × String)) :
    BResult (List (String × String)) :=
  if sign.expire_time ≤ now then .error .WbiTokenExpired
  else
    let query_str := form_to_string data
    match form_from_str query_str with
    | none => .error (from_internal_err "invalid type: string, expected a borrowed string")
    | some v =>
      let ts := toString now
      let v := sortByKey (v ++ [("wts", ts)])
      let salted := form_to_string v ++ sign.mixin_key
      let w_rid := md5hex (strBytes salted)
      .ok (v ++ [("w_rid", w_rid)])

/-! ## Mixing-key derivation (`WbiSign::from_server`, steps 1–3) -/

/-- Embedding of `url_to_key` of `src/wbi_client/sign.rs`: last `/`-segment,
then the part before the first `.` (Rust's `split` yields at least one piece,
so both options are in fact always populated). -/
def url_to_key (url : String) : Option String := do
  let tmp ← (splitOnChar '/' url.data).getLast?
  let tmp ← (splitOnChar '.' tmp).head?
  return (⟨tmp⟩ : String)

/-- The fixed 64-entry permutation table `MIXIN_KEY_ENC_TAB` of
`WbiSign::from_server`. -/
def MIXIN_KEY_ENC_TAB : List Nat :=
  [46, 47, 18, 2, 53, 8, 23, 32, 15, 50, 10, 31, 58, 3, 45, 35, 27, 43, 5, 49, 33, 9, 42,
   19, 29, 28, 14, 39, 12, 38, 41, 13, 37, 48, 7, 16, 24, 55, 40, 61, 26, 17, 0, 1, 60,
   51, 30, 4, 22, 25, 54, 21, 56, 59, 6, 63, 57, 62, 11, 36, 20, 34, 44, 52]

/-- The key-mixing loop of `WbiSign::from_server`: starting from an array of
64 NUL characters, write `source[i]` to position `MIXIN_KEY_ENC_TAB[i]` for
each position of `source.chars().zip(MIXIN_KEY_ENC_TAB)`. -/
def mixinKeyChars (source : List Char) : List Char :=
  (source.zip MIXIN_KEY_ENC_TAB).foldl (fun v ci => v.set ci.2 ci.1)
    (List.replicate 64 '\x00')

/-- Mixing-key derivation of `WbiSign::from_server` from the two extracted
key fragments: concatenate, scramble through the table, collect the 64
characters (no truncation happens in the code). -/
def derive_mixin_key (img_key sub_key : String) : String :=
  ⟨mixinKeyChars (img_key ++ sub_key).data⟩

/-! ## `src/login/mod.rs`: the credential store -/

/-- The `Credential` struct: serialized cookie-jar state plus refresh token. -/
structure Credential where
  cookies : String
  refresh_token : String
  deriving DecidableEq, Repr

/-- The ephemeral `RefreshCheck` DTO `{refresh, timestamp}`. -/
structure RefreshCheck where
  refresh : Bool
  timestamp : Nat
  deriving DecidableEq, Repr

/-! ### JSON persistence (`Credential::save_json` / `Credential::load_json`)

`save_json` delegates to `serde_json::to_writer`, which emits the compact
object `{"cookies":«string»,"refresh_token":«string»}` with `serde_json`'s
string escaping; `load_json` delegates to `serde_json::from_reader`, which
parses one JSON value followed by end of input.  Both are embedded here at
the level of that concrete object grammar (string-valued fields `cookies`
and `refresh_token`, each appearing exactly once, in either order,
whitespace-separated), which covers every document `save_json` can emit. -/

/-- Escaping of one character by `serde_json`'s string serializer: `"` and
`\` get a backslash, the five short control escapes are used where they
exist, the remaining control characters become `\u00XX` with lowercase hex,
everything else passes through. -/
def jsonEscapeChar (c : Char) : List Char :=
  if c = '"' then ['\\', '"']
  else if c = '\\' then ['\\', '\\']
  else if c = '\x08' then ['\\', 'b']
  else if c = '\x09' then ['\\', 't']
  else if c = '\x0A' then ['\\', 'n']
  else if c = '\x0C' then ['\\', 'f']
  else if c = '\x0D' then ['\\', 'r']
  else if c.toNat < 0x20 then
    ['\\', 'u', '0', '0', hexDigitLower (c.toNat >>> 4), hexDigitLower (c.toNat % 16)]
  else [c]

/-- JSON string literal (quotes plus escaped body) for a string. -/
def jsonLitChars (s : String) : List Char :=
  '"' :: (s.data.map jsonEscapeChar).flatten ++ ['"']

/-- Embedding of `Credential::save_json`: `serde_json`'s compact rendering of
the two-field object, in declaration order. -/
def save_json (c : Credential) : String :=
  ⟨'{' :: jsonLitChars "cookies" ++ ':' :: jsonLitChars c.cookies ++
    ',' :: jsonLitChars "refresh_token" ++ ':' :: jsonLitChars c.refresh_token ++ ['}']⟩

/-- Numeric value of a hexadecimal digit character, either case. -/
def hexVal (c : Char) : Option Nat :=
  if '0' ≤ c ∧ c ≤ '9' then some (c.toNat - '0'.toNat)
  else if 'a' ≤ c ∧ c ≤ 'f' then some (c.toNat - 'a'.toNat + 10)
  else if 'A' ≤ c ∧ c ≤ 'F' then some (c.toNat - 'A'.toNat + 10)
  else none

/-- Value of four hexadecimal digit characters (a `\uXXXX` payload). -/
def hex4 (h1 h2 h3 h4 : Char) : Option Nat := do
  let a ← hexVal h1
  let b ← hexVal h2
  let c ← hexVal h3
  let d ← hexVal h4
  return ((a * 16 + b) * 16 + c) * 16 + d

/-- Decoded character of a single-letter escape sequence (`serde_json`
accepts `" \ / b f n r t` here; everything else is an invalid escape). -/
def parseEscapeChar (e : Char) : Option Char :=
  if e = '"' then some '"'
  else if e = '\\' then some '\\'
  else if e = '/' then some '/'
  else if e = 'b' then some '\x08'
  else if e = 'f' then some '\x0C'
  else if e = 'n' then some '\x0A'
  else if e = 'r' then some '\x0D'
  else if e = 't' then some '\x09'
  else none

mutual

/-- JSON string-body parser, as `serde_json` reads one: plain characters up
to the closing quote (raw control characters are an error), backslash
escapes, and `\uXXXX` with surrogate-pair handling (a lone surrogate is an
error).  Returns the decoded characters together with the input remaining
after the closing quote. -/
def parseStringBody : List Char → Option (List Char × List Char)
  | [] => none
  | c :: l =>
    if c = '"' then some ([], l)
    else if c = '\\' then parseEscape l
    else if c.toNat < 0x20 then none
    else (parseStringBody l).map fun p => (c :: p.1, p.2)
  termination_by l => l.length

/-- Continuation of `parseStringBody` after a backslash. -/
def parseEscape : List Char → Option (List Char × List Char)
  | [] => none
  | e :: l =>
    if e = 'u' then parseUnicodeEscape l
    else
      match parseEscapeChar e with
      | none => none
      | some ch => (parseStringBody l).map fun p => (ch :: p.1, p.2)
  termination_by l => l.length

/-- Continuation of `parseStringBody` after `\u`: four hex digits, then
either a scalar value or a high surrogate awaiting its partner. -/
def parseUnicodeEscape : List Char → Option (List Char × List Char)
  | h1 :: h2 :: h3 :: h4 :: l =>
    match hex4 h1 h2 h3 h4 with
    | none => none
    | some n =>
      if n < 0xD800 ∨ 0xE000 ≤ n then
        (parseStringBody l).map fun p => (Char.ofNat n :: p.1, p.2)
      else if n < 0xDC00 then parseLowSurrogate n l
      else none
  | _ => none
  termination_by l => l.length

/-- Continuation after a high surrogate `n`: a `\uXXXX` low surrogate must
follow, combining into one supplementary-plane character. -/
def parseLowSurrogate (n : Nat) : List Char → Option (List Char × List Char)
  | b1 :: u1 :: k1 :: k2 :: k3 :: k4 :: l =>
    if b1 = '\\' ∧ u1 = 'u' then
      match hex4 k1 k2 k3 k4 with
      | none => none
      | some m =>
        if 0xDC00 ≤ m ∧ m < 0xE000 then
          (parseStringBody l).map fun p =>
            (Char.ofNat (0x10000 + (n - 0xD800) * 0x400 + (m - 0xDC00)) :: p.1, p.2)
        else none
    else none
  | _ => none
  termination_by l => l.length

end

/-- JSON insignificant whitespace, as `serde_json` skips it. -/
def skipWs (l : List Char) : List Char :=
  l.dropWhile fun c => c = ' ' ∨ c = '\x09' ∨ c = '\x0A' ∨ c = '\x0D'

/-- One `"name" : "value"` member of the credential object. -/
def parseMember (l : List Char) : Option ((String × String) × List Char) :=
  match skipWs l with
  | '"' :: l => do
    let (name, l) ← parseStringBody l
    match skipWs l with
    | ':' :: l =>
      match skipWs l with
      | '"' :: l => do
        let (value, l) ← parseStringBody l
        return ((⟨name⟩, ⟨value⟩), l)
      | _ => none
    | _ => none
  | _ => none

/-- Assembly of a `Credential` from the two parsed members: field order is
free, each field is required exactly once (as `serde`'s derived
deserializer enforces). -/
def credFromMembers (m1 m2 : String × String) : Option Credential :=
  if m1.1 = "cookies" ∧ m2.1 = "refresh_token" then some ⟨m1.2, m2.2⟩
  else if m1.1 = "refresh_token" ∧ m2.1 = "cookies" then some ⟨m2.2, m1.2⟩
  else none

/-- Embedding of `Credential::load_json`: parse the two-member object
followed only by trailing whitespace; any failure surfaces as the internal
error `serde_json::from_reader`'s error is mapped to. -/
def load_json (s : String) : BResult Credential :=
  let parsed : Option Credential := do
    let l := skipWs s.data
    match l with
    | '{' :: l => do
      let (m1, l) ← parseMember l
      match skipWs l with
      | ',' :: l => do
        let (m2, l) ← parseMember l
        match skipWs l with
        | '}' :: l => if (skipWs l).isEmpty then credFromMembers m1 m2 else none
        | _ => none
      | _ => none
    | _ => none
  match parsed with
  | some c => .ok c
  | none => .error (from_internal_err "invalid credential json")

/-! ### `Credential::check_and_refresh` (`src/login/mod.rs`)

The six helper operations the method sequences are external effects (four
network round trips, one RSA encryption, two cookie-jar accesses); they are
modelled as an environment record holding each operation's outcome, and
`check_and_refresh` returns, next to its `BResult` and the final credential,
the list of network requests it issued, in order. -/

/-- The network round trips `check_and_refresh` can issue. -/
inductive NetCall where
  | checkCookie
  | getRefreshCsrf
  | refreshCookie
  | confirmRefresh
  deriving DecidableEq, Repr

/-- Environment of `check_and_refresh`: the outcome of each helper operation
of `src/login/mod.rs` it sequences.  `gen_correspond_path` takes the
timestamp, `get_refresh_csrf` the correspond path, `refresh_cookie` the pair
of CSRF tokens and the old refresh token, `confirm_refresh` the refresh CSRF
and the old refresh token; `save_cookie_jar` is the cookie-jar serialization
plus UTF-8 conversion of the persist step. -/
structure RefreshEnv where
  check_cookie : BResult RefreshCheck
  gen_correspond_path : Nat → BResult String
  get_refresh_csrf : String → BResult String
  get_bilibili_cookie : BResult String
  refresh_cookie : String → String → String → BResult String
  confirm_refresh : String → String → BResult Unit
  save_cookie_jar : BResult String

/-- Embedding of `Credential::check_and_refresh`: the linear sequence of
steps with early return, mirroring the `?` operators of the source.  The
credential (`prev` in the source) is threaded as state; its two fields are
assigned only in the final step, after every fallible step has succeeded.
The third component records the network calls issued, in order (a failed
round trip was still issued). -/
def check_and_refresh (env : RefreshEnv) (prev : Credential) :
    BResult Unit × Credential × List NetCall :=
  match env.check_cookie with
  | .error e => (.error e, prev, [.checkCookie])
  | .ok data =>
    if ¬ data.refresh then (.ok (), prev, [.checkCookie])
    else
      match env.gen_correspond_path data.timestamp with
      | .error e => (.error e, prev, [.checkCookie])
      | .ok cp =>
        match env.get_refresh_csrf cp with
        | .error e => (.error e, prev, [.checkCookie, .getRefreshCsrf])
        | .ok refresh_csrf =>
          match env.get_bilibili_cookie with
          | .error e => (.error e, prev, [.checkCookie, .getRefreshCsrf])
          | .ok csrf =>
            match env.refresh_cookie csrf refresh_csrf prev.refresh_token with
            | .error e => (.error e, prev, [.checkCookie, .getRefreshCsrf, .refreshCookie])
            | .ok new_refresh_token =>
              match env.confirm_refresh refresh_csrf prev.refresh_token with
              | .error e =>
                  (.error e, prev,
                   [.checkCookie, .getRefreshCsrf, .refreshCookie, .confirmRefresh])
              | .ok _ =>
                match env.save_cookie_jar with
                | .error e =>
                    (.error e, prev,
                     [.checkCookie, .getRefreshCsrf, .refreshCookie, .confirmRefresh])
                | .ok w =>
                    (.ok (), ⟨w, new_refresh_token⟩,
                     [.checkCookie, .getRefreshCsrf, .refreshCookie, .confirmRefresh])

/-! ## `src/login/qrcode.rs`: QR login polling -/

/-- The `QRCodeLoginState` enum. -/
inductive QRCodeLoginState where
  | Success (c : Credential)
  | QRCodeExpired
  | WaitConfirm
  | WaitScan
  deriving DecidableEq, Repr

/-- The parsed poll DTO `QRCodeLoginPoll {code, refresh_token}`. -/
structure QRCodeLoginPoll where
  code : Int
  refresh_token : String
  deriving DecidableEq, Repr

/-- Embedding of the status dispatch of `QRCodeLogin::poll_login_state`
(`src/login/qrcode.rs`), from the parsed poll DTO onward: code `0` builds a
`Credential` from the current cookie-store snapshot (`wbi_client.get_cookies()`,
passed as the fallible `get_cookies` outcome) and the returned refresh token;
`86038`, `86090`, `86101` map to their variants; every other code returns the
`"Invalid login state code found."` parse error. -/
def poll_login_state (get_cookies : BResult String) (poll : QRCodeLoginPoll) :
    BResult QRCodeLoginState :=
  match poll.code with
  | 0 =>
    match get_cookies with
    | .error e => .error e
    | .ok ck => .ok (.Success ⟨ck, poll.refresh_token⟩)
  | 86038 => .ok .QRCodeExpired
  | 86090 => .ok .WaitConfirm
  | 86101 => .ok .WaitScan
  | _ => .error (from_json_err "Invalid login state code found.")

/-- The error codes carrying a dedicated message in `try_parse_error_code`'s
table (every arm except the wildcard). -/
def mappedCodes : List Int :=
  [0, -1, -2, -3, -4, -101, -102, -103, -104, -105, -106, -107, -108, -110,
   -111, -112, -113, -114, -115, -304, -307, -400, -401, -403, -404, -405,
   -409, -412, -500, -503, -504, -509, -616, -617, -625, -626, -628, -629,
   -632, -643, -650, -652, -658, -662, -688, -689, -701, -799, -8888]

/-- A refresh environment whose very first step (the status check) fails:
used to exercise the error path of `check_and_refresh` on concrete data. -/
def failingCheckEnv : RefreshEnv :=
  ⟨.error (.NetworkError "boom"), fun _ => .ok "cp", fun _ => .ok "rcsrf",
   .ok "jct", fun _ _ _ => .ok "ntok", fun _ _ => .ok (), .ok "jar"⟩

/-- A refresh environment in which every step succeeds: the status check
reports that no refresh is required. -/
def noRefreshEnv : RefreshEnv :=
  ⟨.ok ⟨false, 1684746387⟩, fun _ => .ok "cp", fun _ => .ok "rcsrf",
   .ok "jct", fun _ _ _ => .ok "ntok", fun _ _ => .ok (), .ok "jar"⟩

end BiliSpec

namespace BiliSpec

/-! # Claim theorems -/

set_option maxRecDepth 8000 in
/-- C1: for the fixed mixing key `"72136226c6a73669787ee4fd02a74c27"`,
timestamp fixed to `1684746387`, and the input query pairs
`[("foo","114"), ("bar","514"), ("zab","1919810")]`, `sign_data` succeeds and
the resulting query contains `wts == "1684746387"` and
`w_rid == "90efcab09403023875b8516f07e9f9de"`. -/
theorem c1_deterministic_signature :
    (sign_data ⟨"72136226c6a73669787ee4fd02a74c27", 18446744073709551615⟩ 1684746387
        [("foo", "114"), ("bar", "514"), ("zab", "1919810")]).isOk = true ∧
    ((sign_data ⟨"72136226c6a73669787ee4fd02a74c27", 18446744073709551615⟩ 1684746387
        [("foo", "114"), ("bar", "514"), ("zab", "1919810")]).toOption.bind
      (List.lookup "wts")) = some "1684746387" ∧
    ((sign_data ⟨"72136226c6a73669787ee4fd02a74c27", 18446744073709551615⟩ 1684746387
        [("foo", "114"), ("bar", "514"), ("zab", "1919810")]).toOption.bind
      (List.lookup "w_rid")) = some "90efcab09403023875b8516f07e9f9de" := by
  decide

/-- C2: for every signing key whose `expire_time` is at most the current
timestamp, every call to `sign_data` fails with the distinguished
`WbiTokenExpired` error, regardless of the query content. -/
theorem c2_expiry_enforcement (sign : WbiSign) (now : Nat)
    (data : List (String × String)) (h : sign.expire_time ≤ now) :
    sign_data sign now data = .error .WbiTokenExpired := by
  simp [sign_data, h]

/-- C2 witness: a concrete expired key rejects a concrete query. -/
theorem c2_expiry_enforcement_witness :
    (WbiSign.mk "key" 5).expire_time ≤ 7 ∧
      sign_data ⟨"key", 5⟩ 7 [("a", "b")] = .error .WbiTokenExpired :=
  ⟨by decide, c2_expiry_enforcement ⟨"key", 5⟩ 7 [("a", "b")] (by decide)⟩

/-- C4: contrary to the claim (and to `get_next_day`'s own documentation
"timestamp of next day 00:00 (UTC +8)"), the code interprets the next UTC+8
civil date's midnight as **UTC** (`and_utc()`), so the returned expiry is
exactly 8 hours after the next midnight in UTC+8; at `now = 0`
(1970-01-01T00:00:00Z) the code yields 86400 where the claimed value
is 57600. -/
theorem c4_next_day_divergence :
    (∀ now : Nat, get_next_day now = .ok (spec_next_midnight_utc8 now + 8 * 3600)) ∧
    get_next_day 0 = .ok 86400 ∧ spec_next_midnight_utc8 0 = 57600 := by
  refine ⟨fun now => ?_, by decide, by decide⟩
  have h : ((now + 8 * 3600) / 86400 + 1) * 86400 - 8 * 3600 + 8 * 3600 =
      ((now + 8 * 3600) / 86400 + 1) * 86400 := by
    generalize (now + 8 * 3600) / 86400 = d
    omega
  simp [get_next_day, spec_next_midnight_utc8, h]

/-- C6: `poll_login_state` maps code 0 to `Success` carrying the current
cookie-store snapshot and the returned refresh token, 86038 to expiry,
86090 to awaiting confirmation, 86101 to awaiting scan, and every other
integer code to the parse error — never a silent default. -/
theorem c6_poll_status_mapping (snap tok : String) (gc : BResult String) (code : Int)
    (h : code ≠ 0 ∧ code ≠ 86038 ∧ code ≠ 86090 ∧ code ≠ 86101) :
    poll_login_state (.ok snap) ⟨0, tok⟩ = .ok (.Success ⟨snap, tok⟩) ∧
    poll_login_state gc ⟨86038, tok⟩ = .ok .QRCodeExpired ∧
    poll_login_state gc ⟨86090, tok⟩ = .ok .WaitConfirm ∧
    poll_login_state gc ⟨86101, tok⟩ = .ok .WaitScan ∧
    poll_login_state gc ⟨code, tok⟩ =
      .error (from_json_err "Invalid login state code found.") := by
  obtain ⟨h0, h1, h2, h3⟩ := h
  refine ⟨rfl, rfl, rfl, rfl, ?_⟩
  unfold poll_login_state
  dsimp only
  split <;> simp_all

/-- C6 witness: the mapping at concrete inputs, with the unknown code 5. -/
theorem c6_poll_status_mapping_witness :
    poll_login_state (.ok "snap") ⟨0, "tok"⟩ = .ok (.Success ⟨"snap", "tok"⟩) ∧
    poll_login_state (.ok "snap") ⟨86038, "tok"⟩ = .ok .QRCodeExpired ∧
    poll_login_state (.ok "snap") ⟨86090, "tok"⟩ = .ok .WaitConfirm ∧
    poll_login_state (.ok "snap") ⟨86101, "tok"⟩ = .ok .WaitScan ∧
    poll_login_state (.ok "snap") ⟨5, "tok"⟩ =
      .error (from_json_err "Invalid login state code found.") :=
  c6_poll_status_mapping "snap" "tok" (.ok "snap") 5 (by decide)

/-- C7: when the status check reports `refresh == false`,
`check_and_refresh` returns success with the credential unchanged, and the
status check is the only network call issued. -/
theorem c7_refresh_short_circuit (env : RefreshEnv) (prev : Credential) (ts : Nat)
    (h : env.check_cookie = .ok ⟨false, ts⟩) :
    check_and_refresh env prev = (.ok (), prev, [.checkCookie]) := by
  simp [check_and_refresh, h]

/-- C7 witness: the short circuit on a concrete environment. -/
theorem c7_refresh_short_circuit_witness :
    noRefreshEnv.check_cookie = .ok ⟨false, 1684746387⟩ ∧
      check_and_refresh noRefreshEnv ⟨"c", "t"⟩ = (.ok (), ⟨"c", "t"⟩, [.checkCookie]) :=
  ⟨rfl, c7_refresh_short_circuit noRefreshEnv ⟨"c", "t"⟩ 1684746387 rfl⟩

/-- C10: `check_and_refresh` is atomic on the credential — whenever it
returns an error, both fields of the credential are left exactly as they
were before the call; they are assigned only after every fallible step has
succeeded. -/
theorem c10_refresh_atomicity (env : RefreshEnv) (prev : Credential) (e : BError)
    (h : (check_and_refresh env prev).1 = .error e) :
    (check_and_refresh env prev).2.1 = prev := by
  rcases hc : env.check_cookie with e1 | data
  · simp [check_and_refresh, hc]
  · by_cases hr : data.refresh
    · rcases hcp : env.gen_correspond_path data.timestamp with e1 | cp
      · simp [check_and_refresh, hc, hr, hcp]
      · rcases hrc : env.get_refresh_csrf cp with e1 | rcsrf
        · simp [check_and_refresh, hc, hr, hcp, hrc]
        · rcases hlc : env.get_bilibili_cookie with e1 | csrf
          · simp [check_and_refresh, hc, hr, hcp, hrc, hlc]
          · rcases hrk : env.refresh_cookie csrf rcsrf prev.refresh_token with e1 | ntok
            · simp [check_and_refresh, hc, hr, hcp, hrc, hlc, hrk]
            · rcases hcf : env.confirm_refresh rcsrf prev.refresh_token with e1 | u
              · simp [check_and_refresh, hc, hr, hcp, hrc, hlc, hrk, hcf]
              · rcases hsv : env.save_cookie_jar with e1 | w
                · simp [check_and_refresh, hc, hr, hcp, hrc, hlc, hrk, hcf, hsv]
                · simp [check_and_refresh, hc, hr, hcp, hrc, hlc, hrk, hcf, hsv] at h
    · simp [check_and_refresh, hc, hr]

/-- C10 witness: a failing first step leaves a concrete credential intact. -/
theorem c10_refresh_atomicity_witness :
    (check_and_refresh failingCheckEnv ⟨"c", "t"⟩).1 = .error (.NetworkError "boom") ∧
      (check_and_refresh failingCheckEnv ⟨"c", "t"⟩).2.1 = ⟨"c", "t"⟩ :=
  ⟨rfl, c10_refresh_atomicity failingCheckEnv ⟨"c", "t"⟩ (.NetworkError "boom") rfl⟩

/-- C9 counterexample: at the unmapped positive code 10086 the rendered
message is the generic "Bilibili server returned an error" template, not the
lookup table's "unknown error" fallback — refuting the claim that every
nonzero code renders through the table. -/
theorem c9_counterexample_positive_code :
    displayBError (.BilibiliError 10086) = "Bilibili server returned an error, code is 10086" ∧
    try_parse_error_code 10086 = "未知错误" ∧
    displayBError (.BilibiliError 10086) ≠ try_parse_error_code 10086 := by
  decide

/-- C9 amended: a nonzero **non-positive** code renders through the fixed
lookup table (whose fallback for every unmapped code — positive included —
is "未知错误"), while a positive code renders as the generic
"Bilibili server returned an error, code is {c}" message. -/
theorem c9_error_rendering (c : Int) :
    (displayBError (.BilibiliError c) =
      if 0 < c then "Bilibili server returned an error, code is " ++ toString c
      else try_parse_error_code c) ∧
    (c ∈ mappedCodes ∨ try_parse_error_code c = "未知错误") := by
  constructor
  · by_cases h0 : 0 < c <;> simp [displayBError, h0]
  · by_cases hm : c ∈ mappedCodes
    · exact Or.inl hm
    · right
      simp only [mappedCodes, List.mem_cons, List.not_mem_nil, or_false, not_or] at hm
      simp [try_parse_error_code, hm]

/-! ### Lemmas on folded writes, for the mixing-key permutation (C5) -/

/-- Folded `List.set` writes preserve the length of the array. -/
theorem foldl_set_length (ps : List (Char × Nat)) (v : List Char) :
    (ps.foldl (fun a ci => a.set ci.2 ci.1) v).length = v.length := by
  induction ps generalizing v with
  | nil => rfl
  | cons p ps ih => simp [List.foldl_cons, ih]

/-- A position no pair writes to keeps its initial content. -/
theorem foldl_set_getElem_of_not_mem (ps : List (Char × Nat)) (v : List Char) (i : Nat)
    (h : ∀ p ∈ ps, p.2 ≠ i) :
    (ps.foldl (fun a ci => a.set ci.2 ci.1) v)[i]? = v[i]? := by
  induction ps generalizing v with
  | nil => rfl
  | cons p ps ih =>
    rw [List.foldl_cons, ih _ fun q hq => h q (List.mem_cons_of_mem _ hq)]
    exact List.getElem?_set_ne (h p (List.mem_cons_self p ps))

/-- When all written positions are distinct, a written position holds the
value its pair carries. -/
theorem foldl_set_getElem_of_mem (ps : List (Char × Nat)) (c : Char) (i : Nat)
    (hmem : (c, i) ∈ ps) (hpw : ps.Pairwise (fun a b => a.2 ≠ b.2)) (v : List Char)
    (hi : i < v.length) :
    (ps.foldl (fun a ci => a.set ci.2 ci.1) v)[i]? = some c := by
  induction ps generalizing v with
  | nil => cases hmem
  | cons p ps ih =>
    rw [List.foldl_cons]
    rcases List.mem_cons.1 hmem with heq | hmem'
    · have hnot : ∀ q ∈ ps, q.2 ≠ i := by
        intro q hq
        have := (List.pairwise_cons.1 hpw).1 q hq
        rw [← heq] at this
        exact fun hqi => this hqi.symm
      rw [foldl_set_getElem_of_not_mem ps _ i hnot, ← heq]
      exact List.getElem?_set_self hi
    · exact ih hmem' (List.pairwise_cons.1 hpw).2 _ (by simpa using hi)

/-- Entries of the permutation table are below 64. -/
theorem mixin_tab_lt : ∀ i, i < 64 → MIXIN_KEY_ENC_TAB.getD i 0 < 64 := by decide

/-- The permutation table has no duplicate entries. -/
theorem mixin_tab_nodup : MIXIN_KEY_ENC_TAB.Nodup := by decide

/-- C5: for every pair of key fragments whose concatenation is a 64-character
source string, the derived mixing key is 64 characters long (no truncation to
32), and its character at position `MIXIN_KEY_ENC_TAB[i]` is `source[i]` for
every `i < 64`. -/
theorem c5_mixin_key_scramble (img sub : String) (h : (img ++ sub).length = 64) :
    (derive_mixin_key img sub).length = 64 ∧
    ∀ i, i < 64 →
      (derive_mixin_key img sub).data[MIXIN_KEY_ENC_TAB.getD i 0]? =
        (img ++ sub).data[i]? := by
  have hlen : (img ++ sub).data.length = 64 := h
  have hsum : img.length + sub.length = 64 := by simpa using h
  have htab : MIXIN_KEY_ENC_TAB.length = 64 := by decide
  constructor
  · show (mixinKeyChars (img ++ sub).data).length = 64
    rw [mixinKeyChars, foldl_set_length]
    simp
  · intro i hi
    have hiz : i < ((img ++ sub).data.zip MIXIN_KEY_ENC_TAB).length := by
      simp only [List.length_zip, htab]
      omega
    have hmem : ((img ++ sub).data.get ⟨i, by rw [hlen]; exact hi⟩,
        MIXIN_KEY_ENC_TAB.getD i 0) ∈
        (img ++ sub).data.zip MIXIN_KEY_ENC_TAB := by
      have h2 := List.getElem_mem hiz
      rw [List.getElem_zip] at h2
      rw [List.getD_eq_getElem _ _ (by omega), List.get_eq_getElem]
      exact h2
    have hpw : ((img ++ sub).data.zip MIXIN_KEY_ENC_TAB).Pairwise
        (fun a b => a.2 ≠ b.2) := by
      have hmap : ((img ++ sub).data.zip MIXIN_KEY_ENC_TAB).map Prod.snd =
          MIXIN_KEY_ENC_TAB :=
        List.map_snd_zip _ _ (by omega)
      have := mixin_tab_nodup
      rw [← hmap] at this
      exact (List.pairwise_map.1 this).imp fun hne => hne
    have := foldl_set_getElem_of_mem _ _ _ hmem hpw (List.replicate 64 '\x00')
      (by simpa using mixin_tab_lt i hi)
    show (mixinKeyChars (img ++ sub).data)[MIXIN_KEY_ENC_TAB.getD i 0]? = _
    rw [mixinKeyChars, this, List.getElem?_eq_getElem (by omega)]
    rw [List.get_eq_getElem]

/-! ### Lemmas on the key comparison, for the output-order claim (C3) -/

/-- The key comparison is total. -/
theorem charsLe_total : ∀ as bs : List Char, charsLe as bs = true ∨ charsLe bs as = true
  | [], _ => Or.inl rfl
  | _ :: _, [] => Or.inr rfl
  | a :: as, b :: bs => by
    by_cases hab : a < b
    · left
      simp [charsLe, hab]
    · by_cases hba : b < a
      · right
        simp [charsLe, hba]
      · rcases charsLe_total as bs with h | h <;> [left; right] <;>
          simp [charsLe, hab, hba, h]

/-- The key comparison is transitive. -/
theorem charsLe_trans : ∀ as bs cs : List Char,
    charsLe as bs = true → charsLe bs cs = true → charsLe as cs = true
  | [], _, _, _, _ => rfl
  | _ :: _, [], _, h1, _ => by simp [charsLe] at h1
  | _ :: _, _ :: _, [], _, h2 => by simp [charsLe] at h2
  | a :: as, b :: bs, c :: cs, h1, h2 => by
    by_cases hab : a < b
    · by_cases hbc : b < c
      · simp [charsLe, lt_trans hab hbc]
      · have hcb : ¬ c < b := by
          intro hcb
          simp [charsLe, hbc, hcb] at h2
        obtain rfl : b = c := le_antisymm (not_lt.1 hcb) (not_lt.1 hbc)
        simp [charsLe, hab]
    · have hba : ¬ b < a := by
        intro hba
        simp [charsLe, hab, hba] at h1
      obtain rfl : a = b := le_antisymm (not_lt.1 hba) (not_lt.1 hab)
      simp only [charsLe, if_neg hab, if_neg hba] at h1
      by_cases hbc : a < c
      · simp [charsLe, hbc]
      · have hcb : ¬ c < a := by
          intro hcb
          simp [charsLe, hbc, hcb] at h2
        obtain rfl : a = c := le_antisymm (not_lt.1 hcb) (not_lt.1 hbc)
        simp only [charsLe, if_neg hbc, if_neg hcb] at h2 ⊢
        exact charsLe_trans as bs cs h1 h2

set_option maxRecDepth 8000 in
/-- C3 counterexample: at the query `[("foo","1"), ("bar","2")]` the keys of
the returned query read `bar, foo, wts, w_rid` — the sorted-by-key order with
`wts` in its sorted position — not the claimed original pre-sort order
`foo, bar` followed by `wts`. -/
theorem c3_counterexample_sorted_output :
    ((sign_data ⟨"salt", 1900000000⟩ 1684746387 [("foo", "1"), ("bar", "2")]).toOption.map
      (List.map Prod.fst)) = some ["bar", "foo", "wts", "w_rid"] ∧
    (["bar", "foo", "wts", "w_rid"] : List String) ≠ ["foo", "bar", "wts", "w_rid"] := by
  decide

/-- C3 amended: for every non-expired key, the returned query carries the
(decoded) input pairs **plus `wts` in sorted-by-key order** — a permutation
of the input pairs and `wts`, sorted by key — followed by `w_rid` appended
last; the pre-sort order is not preserved in the output. -/
theorem c3_output_order (sign : WbiSign) (now : Nat) (data v : List (String × String))
    (hexp : now < sign.expire_time)
    (hdec : form_from_str (form_to_string data) = some v) :
    ∃ out, sign_data sign now data = .ok out ∧
      out.dropLast.Perm (v ++ [("wts", toString now)]) ∧
      out.dropLast.Sorted pairKeyLe ∧
      (out.map Prod.fst).getLast? = some "w_rid" := by
  haveI : IsTotal (String × String) pairKeyLe := ⟨fun p q => charsLe_total _ _⟩
  haveI : IsTrans (String × String) pairKeyLe := ⟨fun p q r => charsLe_trans _ _ _⟩
  have hne : ¬ sign.expire_time ≤ now := by omega
  refine ⟨sortByKey (v ++ [("wts", toString now)]) ++
    [("w_rid", md5hex (strBytes (form_to_string
      (sortByKey (v ++ [("wts", toString now)])) ++ sign.mixin_key)))], ?_, ?_, ?_, ?_⟩
  · simp [sign_data, hne, hdec]
  · rw [List.dropLast_concat]
    exact List.perm_insertionSort pairKeyLe _
  · rw [List.dropLast_concat]
    exact List.sorted_insertionSort pairKeyLe _
  · rw [List.map_append]
    simp [List.getLast?_concat]

set_option maxRecDepth 8000 in
/-- C3 amended witness: the characterization at the concrete counterexample
query. -/
theorem c3_output_order_witness :
    (1684746387 < (WbiSign.mk "salt" 1900000000).expire_time) ∧
    form_from_str (form_to_string [("foo", "1"), ("bar", "2")]) =
      some [("foo", "1"), ("bar", "2")] ∧
    (∃ out, sign_data ⟨"salt", 1900000000⟩ 1684746387 [("foo", "1"), ("bar", "2")] = .ok out ∧
      out.dropLast.Perm ([("foo", "1"), ("bar", "2")] ++ [("wts", toString 1684746387)]) ∧
      out.dropLast.Sorted pairKeyLe ∧
      (out.map Prod.fst).getLast? = some "w_rid") :=
  ⟨by decide, by decide,
   c3_output_order ⟨"salt", 1900000000⟩ 1684746387 [("foo", "1"), ("bar", "2")]
     [("foo", "1"), ("bar", "2")] (by decide) (by decide)⟩

/-- C5 witness: the derivation on the two concrete 32-character fragments of
the public WBI example. -/
theorem c5_mixin_key_scramble_witness :
    ("7cd084941338484aae1ad9425b84077c" ++ "4932caff0ff746eab6f01bf08b70ac45" :
        String).length = 64 ∧
    ((derive_mixin_key "7cd084941338484aae1ad9425b84077c"
        "4932caff0ff746eab6f01bf08b70ac45").length = 64 ∧
      ∀ i, i < 64 →
        (derive_mixin_key "7cd084941338484aae1ad9425b84077c"
            "4932caff0ff746eab6f01bf08b70ac45").data[MIXIN_KEY_ENC_TAB.getD i 0]? =
          ("7cd084941338484aae1ad9425b84077c" ++
            "4932caff0ff746eab6f01bf08b70ac45" : String).data[i]?) :=
  ⟨by decide,
   c5_mixin_key_scramble "7cd084941338484aae1ad9425b84077c"
     "4932caff0ff746eab6f01bf08b70ac45" (by decide)⟩

/-! ### Lemmas for the credential JSON round trip (C8) -/

/-- Decoding a lowercase hexadecimal digit inverts encoding. -/
theorem hexVal_hexDigitLower : ∀ n, n < 16 → hexVal (hexDigitLower n) = some n := by decide

/-- Equation: a closing quote ends the string. -/
theorem psb_quote (l : List Char) : parseStringBody ('"' :: l) = some ([], l) := by
  rw [parseStringBody.eq_def]
  rfl

/-- Equation: a backslash defers to the escape parser. -/
theorem psb_backslash (l : List Char) : parseStringBody ('\\' :: l) = parseEscape l := by
  rw [parseStringBody.eq_def]
  rfl

/-- Equation: a plain (unescaped, non-control) character is consumed. -/
theorem psb_lit (c : Char) (l : List Char) (h1 : c ≠ '"') (h2 : c ≠ '\\')
    (h3 : ¬ c.toNat < 0x20) :
    parseStringBody (c :: l) = (parseStringBody l).map fun p => (c :: p.1, p.2) := by
  rw [parseStringBody.eq_def]
  simp [h1, h2, h3]

/-- Equation: a single-letter escape decodes through `parseEscapeChar`. -/
theorem pesc_simple (e ch : Char) (l : List Char) (hu : e ≠ 'u')
    (h : parseEscapeChar e = some ch) :
    parseEscape (e :: l) = (parseStringBody l).map fun p => (ch :: p.1, p.2) := by
  rw [parseEscape.eq_def]
  simp [hu, h]

/-- Equation: a `\uXXXX` escape decoding below the surrogate range. -/
theorem puni_low (a b d e : Char) (n : Nat) (l : List Char)
    (hx : hex4 a b d e = some n) (hlt : n < 0xD800) :
    parseUnicodeEscape (a :: b :: d :: e :: l) =
      (parseStringBody l).map fun p => (Char.ofNat n :: p.1, p.2) := by
  rw [parseUnicodeEscape.eq_def]
  simp [hx, hlt]

/-- Equation: a backslash-`u` sequence defers to the unicode-escape parser. -/
theorem pesc_u (l : List Char) : parseEscape ('u' :: l) = parseUnicodeEscape l := by
  rw [parseEscape.eq_def]
  rfl

/-- The string-body parser inverts `serde_json`-style escaping: parsing the
escaped body followed by the closing quote yields the original characters
and the input past the quote. -/
theorem parseStringBody_escaped (s : List Char) (rest : List Char) :
    parseStringBody ((s.map jsonEscapeChar).flatten ++ '"' :: rest) = some (s, rest) := by
  induction s with
  | nil => simp [psb_quote]
  | cons c t ih =>
    simp only [List.map_cons, List.flatten_cons, List.append_assoc]
    by_cases h1 : c = '"'
    · subst h1
      rw [show jsonEscapeChar '"' = ['\\', '"'] from rfl]
      simp only [List.cons_append, List.nil_append]
      rw [psb_backslash, pesc_simple '"' '"' _ (by decide) rfl, ih]
      rfl
    · by_cases h2 : c = '\\'
      · subst h2
        rw [show jsonEscapeChar '\\' = ['\\', '\\'] from rfl]
        simp only [List.cons_append, List.nil_append]
        rw [psb_backslash, pesc_simple '\\' '\\' _ (by decide) rfl, ih]
        rfl
      · by_cases h3 : c = '\x08'
        · subst h3
          rw [show jsonEscapeChar '\x08' = ['\\', 'b'] from rfl]
          simp only [List.cons_append, List.nil_append]
          rw [psb_backslash, pesc_simple 'b' '\x08' _ (by decide) rfl, ih]
          rfl
        · by_cases h4 : c = '\x09'
          · subst h4
            rw [show jsonEscapeChar '\x09' = ['\\', 't'] from rfl]
            simp only [List.cons_append, List.nil_append]
            rw [psb_backslash, pesc_simple 't' '\x09' _ (by decide) rfl, ih]
            rfl
          · by_cases h5 : c = '\x0A'
            · subst h5
              rw [show jsonEscapeChar '\x0A' = ['\\', 'n'] from rfl]
              simp only [List.cons_append, List.nil_append]
              rw [psb_backslash, pesc_simple 'n' '\x0A' _ (by decide) rfl, ih]
              rfl
            · by_cases h6 : c = '\x0C'
              · subst h6
                rw [show jsonEscapeChar '\x0C' = ['\\', 'f'] from rfl]
                simp only [List.cons_append, List.nil_append]
                rw [psb_backslash, pesc_simple 'f' '\x0C' _ (by decide) rfl, ih]
                rfl
              · by_cases h7 : c = '\x0D'
                · subst h7
                  rw [show jsonEscapeChar '\x0D' = ['\\', 'r'] from rfl]
                  simp only [List.cons_append, List.nil_append]
                  rw [psb_backslash, pesc_simple 'r' '\x0D' _ (by decide) rfl, ih]
                  rfl
                · by_cases h8 : c.toNat < 0x20
                  · have hesc : jsonEscapeChar c =
                        ['\\', 'u', '0', '0', hexDigitLower (c.toNat >>> 4),
                         hexDigitLower (c.toNat % 16)] := by
                      simp [jsonEscapeChar, h1, h2, h3, h4, h5, h6, h7, h8]
                    have e1 : hexVal (hexDigitLower (c.toNat >>> 4)) = some (c.toNat >>> 4) :=
                      hexVal_hexDigitLower _ (by rw [Nat.shiftRight_eq_div_pow]; omega)
                    have e2 : hexVal (hexDigitLower (c.toNat % 16)) = some (c.toNat % 16) :=
                      hexVal_hexDigitLower _ (by omega)
                    have hx : hex4 '0' '0' (hexDigitLower (c.toNat >>> 4))
                        (hexDigitLower (c.toNat % 16)) = some c.toNat := by
                      simp only [hex4, show hexVal '0' = some 0 from rfl, e1, e2,
                        Option.bind_eq_bind, Option.some_bind, Option.pure_def,
                        Option.some.injEq]
                      rw [Nat.shiftRight_eq_div_pow, show (2 : Nat) ^ 4 = 16 from rfl]
                      omega
                    rw [hesc]
                    simp only [List.cons_append, List.nil_append]
                    rw [psb_backslash, pesc_u, puni_low _ _ _ _ c.toNat _ hx (by omega), ih]
                    simp
                  · have hesc : jsonEscapeChar c = [c] := by
                      simp [jsonEscapeChar, h1, h2, h3, h4, h5, h6, h7, h8]
                    rw [hesc]
                    simp only [List.cons_append, List.nil_append]
                    rw [psb_lit c _ h1 h2 h8, ih]
                    rfl

/-- A serialized `"name":"value"` member parses back to its components. -/
theorem parseMember_lit (name val : String) (rest : List Char) :
    parseMember (jsonLitChars name ++ ':' :: jsonLitChars val ++ rest) =
      some ((name, val), rest) := by
  simp [parseMember, jsonLitChars, skipWs, parseStringBody_escaped]

/-- C8: deserializing the serialization of any credential yields the
credential back — `load_json (save_json c) = Ok c` for the JSON object form
`{"cookies": ..., "refresh_token": ...}`. -/
theorem c8_credential_round_trip (c : Credential) : load_json (save_json c) = .ok c := by
  have h1 := parseMember_lit "cookies" c.cookies
    (',' :: jsonLitChars "refresh_token" ++ ':' :: jsonLitChars c.refresh_token ++ ['}'])
  have h2 := parseMember_lit "refresh_token" c.refresh_token ['}']
  simp only [List.append_assoc, List.cons_append] at h1 h2
  simp [load_json, save_json, skipWs, credFromMembers, h1, h2]

end BiliSpec
